import Mathlib

/-!
Shallow embedding of the interactive console core of a minimal bare-metal
kernel (keyboard decoder, 8259 PIC driver, system clock, line shell,
framebuffer text console, keyboard interrupt dispatcher), together with
theorems settling the specification claims about it.

Machine integers are modelled as `Nat` with an explicit `% 2 ^ w` at the
operations where the source's fixed-width arithmetic can wrap.
-/

/-! ## Keyboard decoder (kernel/src/keyboard.rs) -/

/-- Modifier-key state tracked by the keyboard driver
(`KeyboardState` in keyboard.rs). -/
structure KeyboardState where
  shift_pressed : Bool
  ctrl_pressed : Bool
  alt_pressed : Bool
  caps_lock : Bool
deriving Repr, DecidableEq

/-- `KeyboardState::new`: all modifiers off at boot. -/
def KeyboardState.new : KeyboardState :=
  { shift_pressed := false
    ctrl_pressed := false
    alt_pressed := false
    caps_lock := false }

/-- `handle_modifier_key`: recognises Shift press/release and the Caps Lock
press scancode, updates the state, and reports whether the scancode was a
modifier.  Scancodes are bytes, modelled as `Nat`. -/
def handle_modifier_key (state : KeyboardState) (scancode : Nat) :
    KeyboardState × Bool :=
  if scancode = 0x2A ∨ scancode = 0x36 then
    ({ state with shift_pressed := true }, true)
  else if scancode = 0xAA ∨ scancode = 0xB6 then
    ({ state with shift_pressed := false }, true)
  else if scancode = 0x3A then
    ({ state with caps_lock := !state.caps_lock }, true)
  else
    (state, false)

/-- `letter_case`: Caps Lock XOR Shift selects the uppercase variant. -/
def letter_case (lowercase uppercase : Char) (shift_pressed caps_lock : Bool) :
    Char :=
  if xor caps_lock shift_pressed then uppercase else lowercase

/-- `get_percent_char` in keyboard.rs. -/
def get_percent_char : Char := '%'

/-- `get_quote_char` in keyboard.rs (the double-quote character). -/
def get_quote_char : Char := Char.ofNat 34

/-- `get_apostrophe_char` in keyboard.rs (the single-quote character). -/
def get_apostrophe_char : Char := Char.ofNat 39

/-- `get_pipe_char` in keyboard.rs. -/
def get_pipe_char : Char := '|'

/-- `get_backslash_char` in keyboard.rs (the backslash character). -/
def get_backslash_char : Char := Char.ofNat 92

/-- `scancode_to_char`: set-1 scancode to character, honouring Shift and
Caps Lock exactly as the Rust match does.  Characters that the hard rules
of this development cannot spell as literals are written `Char.ofNat`:
96 is the backtick, 123/125 the curly braces, 10 newline, 8 backspace,
9 tab. -/
def scancode_to_char (scancode : Nat) (shift_pressed caps_lock : Bool) :
    Option Char :=
  match scancode with
  | 0x02 => some (if shift_pressed then '!' else '1')
  | 0x03 => some (if shift_pressed then '@' else '2')
  | 0x04 => some (if shift_pressed then '#' else '3')
  | 0x05 => some (if shift_pressed then '$' else '4')
  | 0x06 => some (if shift_pressed then get_percent_char else '5')
  | 0x07 => some (if shift_pressed then '^' else '6')
  | 0x08 => some (if shift_pressed then '&' else '7')
  | 0x09 => some (if shift_pressed then '*' else '8')
  | 0x0A => some (if shift_pressed then '(' else '9')
  | 0x0B => some (if shift_pressed then ')' else '0')
  | 0x10 => some (letter_case 'q' 'Q' shift_pressed caps_lock)
  | 0x11 => some (letter_case 'w' 'W' shift_pressed caps_lock)
  | 0x12 => some (letter_case 'e' 'E' shift_pressed caps_lock)
  | 0x13 => some (letter_case 'r' 'R' shift_pressed caps_lock)
  | 0x14 => some (letter_case 't' 'T' shift_pressed caps_lock)
  | 0x15 => some (letter_case 'y' 'Y' shift_pressed caps_lock)
  | 0x16 => some (letter_case 'u' 'U' shift_pressed caps_lock)
  | 0x17 => some (letter_case 'i' 'I' shift_pressed caps_lock)
  | 0x18 => some (letter_case 'o' 'O' shift_pressed caps_lock)
  | 0x19 => some (letter_case 'p' 'P' shift_pressed caps_lock)
  | 0x1E => some (letter_case 'a' 'A' shift_pressed caps_lock)
  | 0x1F => some (letter_case 's' 'S' shift_pressed caps_lock)
  | 0x20 => some (letter_case 'd' 'D' shift_pressed caps_lock)
  | 0x21 => some (letter_case 'f' 'F' shift_pressed caps_lock)
  | 0x22 => some (letter_case 'g' 'G' shift_pressed caps_lock)
  | 0x23 => some (letter_case 'h' 'H' shift_pressed caps_lock)
  | 0x24 => some (letter_case 'j' 'J' shift_pressed caps_lock)
  | 0x25 => some (letter_case 'k' 'K' shift_pressed caps_lock)
  | 0x26 => some (letter_case 'l' 'L' shift_pressed caps_lock)
  | 0x2C => some (letter_case 'z' 'Z' shift_pressed caps_lock)
  | 0x2D => some (letter_case 'x' 'X' shift_pressed caps_lock)
  | 0x2E => some (letter_case 'c' 'C' shift_pressed caps_lock)
  | 0x2F => some (letter_case 'v' 'V' shift_pressed caps_lock)
  | 0x30 => some (letter_case 'b' 'B' shift_pressed caps_lock)
  | 0x31 => some (letter_case 'n' 'N' shift_pressed caps_lock)
  | 0x32 => some (letter_case 'm' 'M' shift_pressed caps_lock)
  | 0x39 => some ' '
  | 0x1C => some (Char.ofNat 10)
  | 0x0E => some (Char.ofNat 8)
  | 0x0F => some (Char.ofNat 9)
  | 0x0C => some (if shift_pressed then '_' else '-')
  | 0x0D => some (if shift_pressed then '+' else '=')
  | 0x1A => some (if shift_pressed then Char.ofNat 123 else '[')
  | 0x1B => some (if shift_pressed then Char.ofNat 125 else ']')
  | 0x27 => some (if shift_pressed then ':' else ';')
  | 0x28 => some (if shift_pressed then get_quote_char else get_apostrophe_char)
  | 0x29 => some (if shift_pressed then '~' else Char.ofNat 96)
  | 0x2B => some (if shift_pressed then get_pipe_char else get_backslash_char)
  | 0x33 => some (if shift_pressed then '<' else ',')
  | 0x34 => some (if shift_pressed then '>' else '.')
  | 0x35 => some (if shift_pressed then '?' else '/')
  | _ => none

/-! ## 8259 PIC driver (kernel/src/pic.rs) -/

/-- Primary PIC command port. -/
def PIC1_COMMAND : Nat := 0x20

/-- Secondary PIC command port. -/
def PIC2_COMMAND : Nat := 0xA0

/-- Vector offset of the primary PIC. -/
def PIC1_OFFSET : Nat := 32

/-- Vector offset of the secondary PIC. -/
def PIC2_OFFSET : Nat := 40

/-- Vector of the timer interrupt (IRQ0). -/
def TIMER_INTERRUPT_ID : Nat := PIC1_OFFSET + 0

/-- Vector of the keyboard interrupt (IRQ1). -/
def KEYBOARD_INTERRUPT_ID : Nat := PIC1_OFFSET + 1

/-- `Pics::end_of_interrupt`, modelled as the ordered list of
(port, value) writes it performs: a `0x20` EOI command to the secondary
controller's command port first when the vector belongs to the secondary
controller's range, then always a `0x20` EOI command to the primary
controller's command port. -/
def end_of_interrupt (interrupt_id : Nat) : List (Nat × Nat) :=
  (if interrupt_id ≥ PIC2_OFFSET then [(PIC2_COMMAND, 0x20)] else [])
    ++ [(PIC1_COMMAND, 0x20)]

/-! ## System clock (kernel/src/time.rs) -/

/-- `TimeManager`: tick accumulator of the system clock.
`system_ticks` is a `u64` and `ms_per_tick` a `u32` in the source; both are
kept as `Nat` values below the respective bound, with the wrap made
explicit at the arithmetic. -/
structure TimeManager where
  system_ticks : Nat
  ms_per_tick : Nat
  initialized : Bool
deriving Repr, DecidableEq

/-- `TimeManager::new`: zero ticks, default 10 ms per tick, uninitialised. -/
def TimeManager.new : TimeManager :=
  { system_ticks := 0, ms_per_tick := 10, initialized := false }

/-- `TimeManager::initialize`: store the tick period, reset the tick count
and mark the clock initialised. -/
def TimeManager.initializeClock (tm : TimeManager) (ms_per_tick : Nat) :
    TimeManager :=
  { tm with
    ms_per_tick := ms_per_tick % 2 ^ 32
    system_ticks := 0
    initialized := true }

/-- `TimeManager::tick`: one `u64` increment when initialised, no-op
otherwise. -/
def TimeManager.tick (tm : TimeManager) : TimeManager :=
  if tm.initialized then
    { tm with system_ticks := (tm.system_ticks + 1) % 2 ^ 64 }
  else tm

/-- `TimeManager::get_uptime_ms`: `system_ticks * ms_per_tick` in `u64`
arithmetic when initialised, zero otherwise. -/
def TimeManager.get_uptime_ms (tm : TimeManager) : Nat :=
  if tm.initialized then (tm.system_ticks * tm.ms_per_tick) % 2 ^ 64 else 0

/-- `TimeManager::get_uptime_seconds`: integer division by 1000. -/
def TimeManager.get_uptime_seconds (tm : TimeManager) : Nat :=
  tm.get_uptime_ms / 1000

/-- `TimeManager::get_tick_count`. -/
def TimeManager.get_tick_count (tm : TimeManager) : Nat :=
  tm.system_ticks

/-- `TimeManager::is_initialized`. -/
def TimeManager.is_initialized (tm : TimeManager) : Bool :=
  tm.initialized

/-- `UptimeInfo` in time.rs: the day/hour/minute/second/millisecond
breakdown plus the totals. -/
structure UptimeInfo where
  days : Nat
  hours : Nat
  minutes : Nat
  seconds : Nat
  milliseconds : Nat
  total_ms : Nat
  total_seconds : Nat
deriving Repr, DecidableEq

/-- `TimeManager::get_uptime_formatted`: derived breakdown, computed on
read from the uptime totals. -/
def TimeManager.get_uptime_formatted (tm : TimeManager) : UptimeInfo :=
  let total_seconds := tm.get_uptime_seconds
  { days := total_seconds / 86400
    hours := (total_seconds % 86400) / 3600
    minutes := (total_seconds % 3600) / 60
    seconds := total_seconds % 60
    milliseconds := tm.get_uptime_ms % 1000
    total_ms := tm.get_uptime_ms
    total_seconds := tm.get_uptime_seconds }

/-- `n` consecutive `tick()` calls starting from `tm`. -/
def ticksAfter (tm : TimeManager) : Nat → TimeManager
  | 0 => tm
  | n + 1 => (ticksAfter tm n).tick

/-! ## Display colours and observable I/O events

The text console, shell and interrupt handler perform output through the
global writer.  A handler or shell operation is modelled as a pure state
transformer paired with the ordered list of observable actions it emits. -/

/-- `Color` in writer.rs. -/
structure Color where
  r : Nat
  g : Nat
  b : Nat
deriving Repr, DecidableEq

/-- `Color::BLACK`. -/
def Color.BLACK : Color := { r := 0, g := 0, b := 0 }

/-- `Color::WHITE`. -/
def Color.WHITE : Color := { r := 255, g := 255, b := 255 }

/-- `Color::RED`. -/
def Color.RED : Color := { r := 255, g := 0, b := 0 }

/-- `Color::GREEN`. -/
def Color.GREEN : Color := { r := 0, g := 255, b := 0 }

/-- `Color::BLUE`. -/
def Color.BLUE : Color := { r := 0, g := 0, b := 255 }

/-- `Color::YELLOW`. -/
def Color.YELLOW : Color := { r := 255, g := 255, b := 0 }

/-- Observable actions of the interrupt handler and shell paths:
colour changes, console output, characters routed to the shell's
character-consumption entry point (`handle_shell_char`), the visual
backspace (`handle_backspace` on the console), command execution, and the
EOI acknowledgment. -/
inductive Ev where
  | setColor (fg bg : Color)
  | printStr (s : String)
  | printChar (c : Char)
  | shellChar (c : Char)
  | consoleBackspace
  | execCmd (cmd : List Nat)
  | eoi (vector : Nat)
deriving Repr, DecidableEq

/-! ## Line shell (kernel/src/shell.rs) -/

/-- `INPUT_BUFFER_SIZE` in shell.rs. -/
def INPUT_BUFFER_SIZE : Nat := 256

/-- `Shell` state: the fixed 256-byte input buffer (a length-256 list of
byte values), the write cursor, the prompt flag and the `u64` command
counter. -/
structure Shell where
  input_buffer : List Nat
  buffer_pos : Nat
  cursor_at_prompt_start : Bool
  command_count : Nat
deriving Repr, DecidableEq

/-- `Shell::new`: zeroed buffer, empty, zero commands. -/
def Shell.new : Shell :=
  { input_buffer := List.replicate INPUT_BUFFER_SIZE 0
    buffer_pos := 0
    cursor_at_prompt_start := false
    command_count := 0 }

/-- `Shell::add_char`: append the character's byte when a slot below
`INPUT_BUFFER_SIZE - 1` is free, otherwise leave the buffer untouched and
emit the red `[BUFFER FULL]` diagnostic. -/
def Shell.add_char (s : Shell) (ch : Char) : Shell × List Ev :=
  if s.buffer_pos < INPUT_BUFFER_SIZE - 1 then
    ({ s with
        input_buffer := s.input_buffer.set s.buffer_pos (ch.toNat % 256)
        buffer_pos := s.buffer_pos + 1 }, [])
  else
    (s, [Ev.setColor Color.RED Color.BLACK,
         Ev.printStr " [BUFFER FULL] ",
         Ev.setColor Color.WHITE Color.BLACK])

/-- `Shell::handle_backspace`: step the cursor back and zero the freed
slot when the buffer is non-empty. -/
def Shell.handle_backspace (s : Shell) : Shell :=
  if s.buffer_pos > 0 then
    { s with
        buffer_pos := s.buffer_pos - 1
        input_buffer := s.input_buffer.set (s.buffer_pos - 1) 0 }
  else s

/-- `Shell::can_backspace`: whether any characters are buffered. -/
def Shell.can_backspace (s : Shell) : Bool :=
  s.buffer_pos > 0

/-- `Shell::clear_buffer`: the source zeroes every index
`0..INPUT_BUFFER_SIZE` of the fixed `[u8; 256]` array and resets the
cursor; on the length-256 buffer that is exactly the all-zero buffer. -/
def Shell.clear_buffer (s : Shell) : Shell :=
  { s with
      buffer_pos := 0
      input_buffer := List.replicate INPUT_BUFFER_SIZE 0 }

/-- `Shell::show_prompt`: print the green `rust-os` and white `> ` and
mark the cursor at the prompt start. -/
def Shell.show_prompt (s : Shell) : Shell × List Ev :=
  ({ s with cursor_at_prompt_start := true },
   [Ev.setColor Color.GREEN Color.BLACK,
    Ev.printStr "rust-os",
    Ev.setColor Color.WHITE Color.BLACK,
    Ev.printStr "> "])

/-- Rust's `char::is_whitespace` restricted to the byte values that can
occur here: tab, newline, vertical tab, form feed, carriage return and
space. -/
def isRustWhitespace (b : Nat) : Bool :=
  b = 9 || b = 10 || b = 11 || b = 12 || b = 13 || b = 32

/-- `str::trim` on a byte string: drop whitespace from both ends. -/
def trimBytes (bs : List Nat) : List Nat :=
  ((bs.dropWhile isRustWhitespace).reverse.dropWhile isRustWhitespace).reverse

/-- `core::str::from_utf8` on the buffer snapshot.  Every byte the shell
ever stores is ASCII (`Shell::handle_char` only admits ASCII
non-control characters), and on ASCII byte strings UTF-8 validation
always succeeds; a byte `>= 0x80` is treated as undecodable. -/
def utf8DecodeAscii (bs : List Nat) : Option (List Nat) :=
  if bs.all (fun b => decide (b < 128)) then some bs else none

/-- `Shell::process_command`: snapshot the first `buffer_pos` bytes, echo
a newline, and when the snapshot is non-empty, decodable and trims to a
non-empty command, bump the `u64` command counter and execute the
command; always clear the buffer and redraw the prompt afterwards. -/
def Shell.process_command (s : Shell) : Shell × List Ev :=
  let buffer_len := s.buffer_pos
  let temp := s.input_buffer.take buffer_len
  let step :=
    if buffer_len > 0 then
      match utf8DecodeAscii temp with
      | some command_bytes =>
        let command := trimBytes command_bytes
        if command ≠ [] then
          ({ s with command_count := (s.command_count + 1) % 2 ^ 64 },
           [Ev.execCmd command])
        else (s, [])
      | none => (s, [])
    else (s, [])
  let cleared := step.1.clear_buffer
  let prompted := cleared.show_prompt
  (prompted.1, Ev.printStr "\n" :: (step.2 ++ prompted.2))

/-- `Shell::handle_char`: newline dispatches, backspace edits, ASCII
non-control characters are appended, everything else is ignored.
Rust's `char::is_control` on ASCII is `< 0x20` or `0x7F`. -/
def Shell.handle_char (s : Shell) (ch : Char) : Shell × List Ev :=
  if ch = Char.ofNat 10 then
    s.process_command
  else if ch = Char.ofNat 8 then
    (s.handle_backspace, [])
  else if ch.toNat < 128 && !(ch.toNat < 32 || ch.toNat = 127) then
    s.add_char ch
  else
    (s, [])

/-- Feed a list of characters through `Shell::handle_char`, keeping the
state only. -/
def Shell.feedChars (s : Shell) (cs : List Char) : Shell :=
  cs.foldl (fun s c => (s.handle_char c).1) s

/-! ## Keyboard interrupt handler (kernel/src/interrupts.rs)

`keyboard_interrupt_handler` reads one scancode, runs the modifier state
machine, and either reports the modifier, routes the decoded character to
the shell (`handle_shell_char`) and the console, or shows a bracketed
diagnostic; it always ends with the EOI for the keyboard vector.
`canBackspace` stands for the `SHELL.lock().can_backspace()` query the
handler makes before forwarding a backspace. -/

/-- `keyboard_interrupt_handler`, as a transformer of the keyboard
modifier state emitting the ordered observable actions. -/
def keyboard_interrupt_handler (state : KeyboardState) (scancode : Nat)
    (canBackspace : Bool) : KeyboardState × List Ev :=
  let mk := handle_modifier_key state scancode
  let state := mk.1
  if mk.2 then
    (state,
     (if scancode = 0x3A then
        [Ev.setColor Color.YELLOW Color.BLACK,
         Ev.printStr (if state.caps_lock then " [CAPS ON] " else " [CAPS OFF] "),
         Ev.setColor Color.WHITE Color.BLACK]
      else [])
       ++ [Ev.eoi KEYBOARD_INTERRUPT_ID])
  else if scancode < 0x80 then
    match scancode_to_char scancode state.shift_pressed state.caps_lock with
    | some ch =>
      let evs :=
        if ch = Char.ofNat 8 then
          if canBackspace then
            [Ev.shellChar (Char.ofNat 8), Ev.consoleBackspace]
          else []
        else if ch = Char.ofNat 10 then
          [Ev.shellChar (Char.ofNat 10)]
        else if ch = Char.ofNat 9 then
          [Ev.setColor Color.YELLOW Color.BLACK,
           Ev.printStr ">   ",
           Ev.setColor Color.WHITE Color.BLACK]
        else
          [Ev.shellChar ch,
           Ev.setColor
             (if state.caps_lock && ch.isAlpha then Color.RED
              else if state.shift_pressed then Color.BLUE
              else Color.GREEN) Color.BLACK,
           Ev.printChar ch,
           Ev.setColor Color.WHITE Color.BLACK]
      (state, evs ++ [Ev.eoi KEYBOARD_INTERRUPT_ID])
    | none =>
      (state,
       [Ev.setColor Color.YELLOW Color.BLACK,
        Ev.printStr ("[" ++ toString scancode ++ "]"),
        Ev.setColor Color.WHITE Color.BLACK,
        Ev.eoi KEYBOARD_INTERRUPT_ID])
  else
    (state, [Ev.eoi KEYBOARD_INTERRUPT_ID])

/-- Fold a sequence of keyboard interrupts (scancode plus the shell's
`can_backspace` answer at that instant) over the modifier state. -/
def runScancodes (state : KeyboardState) (events : List (Nat × Bool)) :
    KeyboardState :=
  events.foldl (fun st p => (keyboard_interrupt_handler st p.1 p.2).1) state

/-! ## Text console (kernel/src/writer.rs)

The writer owns the pixel surface (a mutable byte buffer) and the cursor.
Every Rust method that touches pixels only mutates `self.buffer`, so the
pixel loops are modelled as pure functions on the byte list and the
`Writer` methods update the `buffer` field with their result.  The glyph
table (`Font8x8::get_char`) is an external data collaborator and is a
parameter `font` mapping a character to its eight bitmap rows. -/

/-- Geometry of the backing surface (`FrameBufferInfo`). -/
structure FrameBufferInfo where
  width : Nat
  height : Nat
  bytes_per_pixel : Nat
deriving Repr, DecidableEq

/-- `Writer::write_pixel_at_offset` on the byte buffer: bounds-checked
BGR(A) store at `offset`. -/
def writePixelAtOffset (bpp : Nat) (buf : List Nat) (offset : Nat)
    (color : Color) : List Nat :=
  if offset + bpp ≤ buf.length then
    let b1 := buf.set offset color.b
    let b2 := if bpp > 1 then b1.set (offset + 1) color.g else b1
    let b3 := if bpp > 2 then b2.set (offset + 2) color.r else b2
    if bpp > 3 then b3.set (offset + 3) 255 else b3
  else buf

/-- `Writer::write_pixel` on the byte buffer: compute the linear offset
from `(x, y)`, check bounds, then store. -/
def writePixel (info : FrameBufferInfo) (buf : List Nat) (x y : Nat)
    (color : Color) : List Nat :=
  let bpp := info.bytes_per_pixel
  let pixel_offset := (y * info.width + x) * bpp
  if pixel_offset + bpp ≤ buf.length then
    writePixelAtOffset bpp buf pixel_offset color
  else buf

/-- `Writer::draw_char` on the byte buffer: for each of the glyph's rows
and eight columns, blit a `scale × scale` block in the foreground colour
for a set bit and the background colour for a clear bit, skipping pixels
outside the surface. -/
def drawCharBuf (font : Char → List Nat) (info : FrameBufferInfo)
    (scale : Nat) (fg bg : Color) (buf : List Nat) (ch : Char)
    (start_x start_y : Nat) : List Nat :=
  let char_bitmap := font ch
  char_bitmap.enum.foldl (fun buf rowPair =>
    let row := rowPair.1
    let bitmap_row := rowPair.2
    (List.range 8).foldl (fun buf col =>
      let pixel_on := (bitmap_row >>> col) % 2
      (List.range scale).foldl (fun buf dy =>
        (List.range scale).foldl (fun buf dx =>
          let x := start_x + col * scale + dx
          let y := start_y + row * scale + dy
          if x < info.width ∧ y < info.height then
            writePixel info buf x y (if pixel_on = 1 then fg else bg)
          else buf) buf) buf) buf) buf

/-- Rust's `(start..stop).step_by(step)` as a list of indices. -/
def stepBy (start stop step : Nat) : List Nat :=
  (List.range ((stop - start + step - 1) / step)).map
    (fun k => start + k * step)

/-- The pixel moves of `Writer::scroll_up` on the byte buffer: copy every
row up by one glyph row (bounds-checked byte by byte), then clear the
newly exposed bottom rows to the background colour. -/
def scrollBuf (info : FrameBufferInfo) (char_height : Nat) (bg : Color)
    (buf : List Nat) : List Nat :=
  let bpp := info.bytes_per_pixel
  let line_bytes := info.width * bpp
  let moved := (List.range (info.height - char_height)).foldl (fun buf y =>
    let src_start := (y + char_height) * line_bytes
    let dst_start := y * line_bytes
    (List.range line_bytes).foldl (fun buf x =>
      if src_start + x < buf.length ∧ dst_start + x < buf.length then
        buf.set (dst_start + x) (buf.getD (src_start + x) 0)
      else buf) buf) buf
  let clear_start := (info.height - char_height) * line_bytes
  (stepBy clear_start moved.length bpp).foldl (fun buf i =>
    writePixelAtOffset bpp buf i bg) moved

/-- `Writer` state: surface bytes, geometry, cursor, colours and glyph
metrics. -/
structure TextWriter where
  buffer : List Nat
  info : FrameBufferInfo
  cursor_x : Nat
  cursor_y : Nat
  fg_color : Color
  bg_color : Color
  char_width : Nat
  char_height : Nat
  scale : Nat
deriving Repr, DecidableEq

/-- `Writer::new`: cursor at the origin, white on black, 8×8 glyphs at
scale 2. -/
def TextWriter.new (buffer : List Nat) (info : FrameBufferInfo) : TextWriter :=
  { buffer := buffer
    info := info
    cursor_x := 0
    cursor_y := 0
    fg_color := Color.WHITE
    bg_color := Color.BLACK
    char_width := 8 * 2
    char_height := 8 * 2
    scale := 2 }

/-- `Writer::scroll_up`: shift the pixels, clear the bottom, and pin the
cursor to the last fully visible glyph row. -/
def TextWriter.scroll_up (w : TextWriter) : TextWriter :=
  { w with
      buffer := scrollBuf w.info w.char_height w.bg_color w.buffer
      cursor_y := w.info.height - w.char_height }

/-- `Writer::newline`: carriage-return the x cursor, advance y by one
glyph row, and scroll when the new row would not fully fit. -/
def TextWriter.newline (w : TextWriter) : TextWriter :=
  let w := { w with cursor_x := 0, cursor_y := w.cursor_y + w.char_height }
  if w.cursor_y + w.char_height > w.info.height then w.scroll_up else w

/-- `Writer::write_char`: newline and carriage return move the cursor;
any other character wraps if needed, is blitted at the cursor, and
advances x by one glyph width. -/
def TextWriter.write_char (font : Char → List Nat) (w : TextWriter) (ch : Char) :
    TextWriter :=
  if ch = Char.ofNat 10 then w.newline
  else if ch = Char.ofNat 13 then { w with cursor_x := 0 }
  else
    let w := if w.cursor_x + w.char_width > w.info.width then w.newline else w
    let w := { w with
      buffer := drawCharBuf font w.info w.scale w.fg_color w.bg_color
        w.buffer ch w.cursor_x w.cursor_y }
    { w with cursor_x := w.cursor_x + w.char_width }

/-- `Writer::write_string`: character-by-character fold over
`write_char`. -/
def TextWriter.write_string (font : Char → List Nat) (w : TextWriter) (s : String) :
    TextWriter :=
  s.toList.foldl (TextWriter.write_char font) w

/-! ## Claim-side vocabulary -/

/-- The letter scancodes: QWERTY row `0x10`–`0x19`, ASDF row
`0x1E`–`0x26`, ZXCV row `0x2C`–`0x32`. -/
def letterScancodes : List Nat :=
  [0x10, 0x11, 0x12, 0x13, 0x14, 0x15, 0x16, 0x17, 0x18, 0x19,
   0x1E, 0x1F, 0x20, 0x21, 0x22, 0x23, 0x24, 0x25, 0x26,
   0x2C, 0x2D, 0x2E, 0x2F, 0x30, 0x31, 0x32]

/-- The lowercase letter each letter scancode denotes on the QWERTY
layout (the spec's "the lowercase letter" for that key). -/
def lowercaseOf (sc : Nat) : Char :=
  match sc with
  | 0x10 => 'q' | 0x11 => 'w' | 0x12 => 'e' | 0x13 => 'r' | 0x14 => 't'
  | 0x15 => 'y' | 0x16 => 'u' | 0x17 => 'i' | 0x18 => 'o' | 0x19 => 'p'
  | 0x1E => 'a' | 0x1F => 's' | 0x20 => 'd' | 0x21 => 'f' | 0x22 => 'g'
  | 0x23 => 'h' | 0x24 => 'j' | 0x25 => 'k' | 0x26 => 'l'
  | 0x2C => 'z' | 0x2D => 'x' | 0x2E => 'c' | 0x2F => 'v' | 0x30 => 'b'
  | 0x31 => 'n' | 0x32 => 'm'
  | _ => ' '

/-- A printable shell character: exactly the guard of
`Shell::handle_char`'s ordinary-character arm (ASCII and not a control
character). -/
def isPrintableAscii (c : Char) : Bool :=
  c.toNat < 128 && !(c.toNat < 32 || c.toNat = 127)

/-- The `[BUFFER FULL]` diagnostic emitted by `Shell::add_char` on a full
buffer. -/
def bufferFullDiag : List Ev :=
  [Ev.setColor Color.RED Color.BLACK,
   Ev.printStr " [BUFFER FULL] ",
   Ev.setColor Color.WHITE Color.BLACK]

/-- The prompt output of `Shell::show_prompt`. -/
def promptEvents : List Ev :=
  [Ev.setColor Color.GREEN Color.BLACK,
   Ev.printStr "rust-os",
   Ev.setColor Color.WHITE Color.BLACK,
   Ev.printStr "> "]

/-- The shell-state invariant: the backing array keeps its fixed 256-byte
size and the write cursor stays in `0 .. INPUT_BUFFER_SIZE - 1`. -/
def ShellInv (s : Shell) : Prop :=
  s.input_buffer.length = INPUT_BUFFER_SIZE ∧
  s.buffer_pos ≤ INPUT_BUFFER_SIZE - 1

/-! ## Theorems -/

/-- C1: for every letter scancode (QWERTY/ASDF/ZXCV rows),
`scancode_to_char` with `shift = caps` (both off or both on) returns the
key's lowercase letter and with exactly one of the two set returns its
uppercase form; the case depends only on `shift XOR caps`. -/
theorem letter_scancode_xor_case :
    ∀ sc ∈ letterScancodes, ∀ shift caps : Bool,
      scancode_to_char sc shift caps =
        some (if xor shift caps then (lowercaseOf sc).toUpper
              else lowercaseOf sc) ∧
      (lowercaseOf sc).isLower = true ∧
      ((lowercaseOf sc).toUpper).isUpper = true := by
  decide

/-- Witness for C1 at the `q` key: shift alone yields `Q`, shift together
with caps yields `q`. -/
theorem letter_scancode_xor_case_witness :
    scancode_to_char 0x10 true false = some 'Q' ∧
    scancode_to_char 0x10 true true = some 'q' := by
  have h1 := letter_scancode_xor_case 0x10 (by decide) true false
  have h2 := letter_scancode_xor_case 0x10 (by decide) true true
  exact ⟨by simpa using h1.1, by simpa using h2.1⟩

/-- C2: `end_of_interrupt` on a vector at or above the secondary
controller's offset (40) performs exactly two acknowledgment writes —
the `0x20` command to the secondary controller's port `0xA0` first, then
to the primary controller's port `0x20` — and on a lower vector exactly
the one primary write. -/
theorem end_of_interrupt_write_sequence (vector : Nat) (h : vector < 256) :
    (PIC2_OFFSET ≤ vector →
      end_of_interrupt vector = [(PIC2_COMMAND, 0x20), (PIC1_COMMAND, 0x20)]) ∧
    (vector < PIC2_OFFSET →
      end_of_interrupt vector = [(PIC1_COMMAND, 0x20)]) := by
  constructor
  · intro hv
    rw [end_of_interrupt, if_pos hv]
    rfl
  · intro hv
    rw [end_of_interrupt, if_neg (by omega)]
    rfl

/-- Witness for C2 at the secondary-range vector 40 and the keyboard
vector 33. -/
theorem end_of_interrupt_write_sequence_witness :
    end_of_interrupt 40 = [(0xA0, 0x20), (0x20, 0x20)] ∧
    end_of_interrupt 33 = [(0x20, 0x20)] :=
  ⟨(end_of_interrupt_write_sequence 40 (by decide)).1 (by decide),
   (end_of_interrupt_write_sequence 33 (by decide)).2 (by decide)⟩

/-- C9: the Caps Lock press scancode `0x3A` is a modifier that toggles
exactly the `caps_lock` field, so applying `handle_modifier_key` with it
twice returns any `KeyboardState` to its original value. -/
theorem caps_lock_involution (st : KeyboardState) :
    handle_modifier_key st 0x3A = ({ st with caps_lock := !st.caps_lock }, true) ∧
    handle_modifier_key (handle_modifier_key st 0x3A).1 0x3A = (st, true) := by
  obtain ⟨s, c, a, l⟩ := st
  refine ⟨?_, ?_⟩ <;> simp [handle_modifier_key]

/-- `handle_modifier_key` never touches the `ctrl_pressed` and
`alt_pressed` fields. -/
theorem handle_modifier_key_ctrl_alt (st : KeyboardState) (sc : Nat) :
    (handle_modifier_key st sc).1.ctrl_pressed = st.ctrl_pressed ∧
    (handle_modifier_key st sc).1.alt_pressed = st.alt_pressed := by
  unfold handle_modifier_key
  repeat' split
  all_goals exact ⟨rfl, rfl⟩

/-- The keyboard interrupt handler changes the modifier state only
through `handle_modifier_key`. -/
theorem keyboard_interrupt_handler_state (st : KeyboardState) (sc : Nat)
    (cb : Bool) :
    (keyboard_interrupt_handler st sc cb).1 = (handle_modifier_key st sc).1 := by
  unfold keyboard_interrupt_handler
  rcases hmk : handle_modifier_key st sc with ⟨st2, b⟩
  simp only [hmk]
  repeat' split
  all_goals rfl

/-- C10: for every scancode, `handle_modifier_key` leaves `ctrl_pressed`
and `alt_pressed` unchanged, and hence under any sequence of keyboard
interrupts from the boot state they stay `false` forever. -/
theorem ctrl_alt_never_set :
    (∀ (st : KeyboardState) (sc : Nat),
      (handle_modifier_key st sc).1.ctrl_pressed = st.ctrl_pressed ∧
      (handle_modifier_key st sc).1.alt_pressed = st.alt_pressed) ∧
    (∀ events : List (Nat × Bool),
      (runScancodes KeyboardState.new events).ctrl_pressed = false ∧
      (runScancodes KeyboardState.new events).alt_pressed = false) := by
  refine ⟨handle_modifier_key_ctrl_alt, ?_⟩
  have main : ∀ (events : List (Nat × Bool)) (st : KeyboardState),
      (runScancodes st events).ctrl_pressed = st.ctrl_pressed ∧
      (runScancodes st events).alt_pressed = st.alt_pressed := by
    intro events
    induction events with
    | nil => exact fun st => ⟨rfl, rfl⟩
    | cons p rest ih =>
      intro st
      have hstep := keyboard_interrupt_handler_state st p.1 p.2
      have hframe := handle_modifier_key_ctrl_alt st p.1
      have hrest := ih (keyboard_interrupt_handler st p.1 p.2).1
      constructor
      · calc (runScancodes st (p :: rest)).ctrl_pressed
            = (runScancodes (keyboard_interrupt_handler st p.1 p.2).1
                rest).ctrl_pressed := rfl
          _ = (keyboard_interrupt_handler st p.1 p.2).1.ctrl_pressed := hrest.1
          _ = st.ctrl_pressed := by rw [hstep]; exact hframe.1
      · calc (runScancodes st (p :: rest)).alt_pressed
            = (runScancodes (keyboard_interrupt_handler st p.1 p.2).1
                rest).alt_pressed := rfl
          _ = (keyboard_interrupt_handler st p.1 p.2).1.alt_pressed := hrest.2
          _ = st.alt_pressed := by rw [hstep]; exact hframe.2
  intro events
  exact main events KeyboardState.new

/-- After `initialize(ms)`, `n < 2^64` ticks leave the clock initialised
with exactly `n` accumulated ticks. -/
theorem ticksAfter_initializeClock (ms n : Nat) (h : n < 2 ^ 64) :
    ticksAfter (TimeManager.new.initializeClock ms) n =
      { system_ticks := n, ms_per_tick := ms % 2 ^ 32, initialized := true } := by
  induction n with
  | zero => rfl
  | succ k ih =>
    have hk : k < 2 ^ 64 := by omega
    rw [ticksAfter, ih hk]
    simp [TimeManager.tick]
    omega

/-- C5: `tick()` called `N` times after `initialize(10)` yields
`uptimeMs() = 10 * N` and `uptimeSeconds() = (10 * N) / 1000` (integer
division), for every `N` whose millisecond total fits the `u64`
accumulator. -/
theorem clock_tick_uptime (N : Nat) (h : 10 * N < 2 ^ 64) :
    (ticksAfter (TimeManager.new.initializeClock 10) N).get_uptime_ms = 10 * N ∧
    (ticksAfter (TimeManager.new.initializeClock 10) N).get_uptime_seconds =
      (10 * N) / 1000 := by
  have hN : N < 2 ^ 64 := by omega
  rw [ticksAfter_initializeClock 10 N hN]
  have hms : (10 : Nat) % 2 ^ 32 = 10 := by norm_num
  constructor
  · simp [TimeManager.get_uptime_ms, hms]
    omega
  · simp [TimeManager.get_uptime_seconds, TimeManager.get_uptime_ms, hms]
    omega

/-- Witness for C5 at `N = 7`: 70 ms and 0 whole seconds. -/
theorem clock_tick_uptime_witness :
    (ticksAfter (TimeManager.new.initializeClock 10) 7).get_uptime_ms = 70 ∧
    (ticksAfter (TimeManager.new.initializeClock 10) 7).get_uptime_seconds = 0 := by
  have h := clock_tick_uptime 7 (by norm_num)
  exact ⟨by simpa using h.1, by simpa using h.2⟩

/-- C8: before `initialize` has run, `tick()` is a no-op (so the boot
tick counter stays 0 under any number of ticks) and every derived read
returns zero; once initialised, the derived reads are pure functions of
`tickCount * msPerTick` (in `u64` arithmetic). -/
theorem clock_preinit_reads :
    (∀ tm : TimeManager, tm.initialized = false →
      tm.tick = tm ∧
      tm.get_uptime_ms = 0 ∧
      tm.get_uptime_seconds = 0 ∧
      tm.get_uptime_formatted =
        { days := 0, hours := 0, minutes := 0, seconds := 0,
          milliseconds := 0, total_ms := 0, total_seconds := 0 }) ∧
    (∀ n : Nat, ticksAfter TimeManager.new n = TimeManager.new) ∧
    (∀ tm : TimeManager, tm.initialized = true →
      tm.get_uptime_ms = tm.system_ticks * tm.ms_per_tick % 2 ^ 64 ∧
      tm.get_uptime_seconds = tm.system_ticks * tm.ms_per_tick % 2 ^ 64 / 1000 ∧
      tm.get_uptime_formatted =
        { days := tm.system_ticks * tm.ms_per_tick % 2 ^ 64 / 1000 / 86400
          hours := tm.system_ticks * tm.ms_per_tick % 2 ^ 64 / 1000 % 86400 / 3600
          minutes := tm.system_ticks * tm.ms_per_tick % 2 ^ 64 / 1000 % 3600 / 60
          seconds := tm.system_ticks * tm.ms_per_tick % 2 ^ 64 / 1000 % 60
          milliseconds := tm.system_ticks * tm.ms_per_tick % 2 ^ 64 % 1000
          total_ms := tm.system_ticks * tm.ms_per_tick % 2 ^ 64
          total_seconds := tm.system_ticks * tm.ms_per_tick % 2 ^ 64 / 1000 }) := by
  refine ⟨?_, ?_, ?_⟩
  · intro tm h
    refine ⟨?_, ?_, ?_, ?_⟩
    · simp [TimeManager.tick, h]
    · simp [TimeManager.get_uptime_ms, h]
    · simp [TimeManager.get_uptime_seconds, TimeManager.get_uptime_ms, h]
    · simp [TimeManager.get_uptime_formatted, TimeManager.get_uptime_seconds,
        TimeManager.get_uptime_ms, h]
  · intro n
    induction n with
    | zero => rfl
    | succ k ih => rw [ticksAfter, ih]; rfl
  · intro tm h
    refine ⟨?_, ?_, ?_⟩
    · simp [TimeManager.get_uptime_ms, h]
    · simp [TimeManager.get_uptime_seconds, TimeManager.get_uptime_ms, h]
    · simp [TimeManager.get_uptime_formatted, TimeManager.get_uptime_seconds,
        TimeManager.get_uptime_ms, h]

/-- Witness for C8 at the boot-state clock: `tick()` is a no-op and the
millisecond read returns zero. -/
theorem clock_preinit_reads_witness :
    TimeManager.new.tick = TimeManager.new ∧
    TimeManager.new.get_uptime_ms = 0 := by
  have h := clock_preinit_reads.1 TimeManager.new rfl
  exact ⟨h.1, h.2.1⟩

/-- On a printable ASCII character `Shell::handle_char` reduces to
`Shell::add_char`. -/
theorem handle_char_printable (s : Shell) (c : Char)
    (h : isPrintableAscii c = true) :
    s.handle_char c = s.add_char c := by
  have hnl : ¬(c = Char.ofNat 10) := by
    intro hc; subst hc; exact absurd h (by decide)
  have hbs : ¬(c = Char.ofNat 8) := by
    intro hc; subst hc; exact absurd h (by decide)
  have hg : (c.toNat < 128 && !(c.toNat < 32 || c.toNat = 127)) = true := h
  unfold Shell.handle_char
  rw [if_neg hnl, if_neg hbs, if_pos hg]

/-- The boot shell has the fixed 256-byte buffer and an empty cursor. -/
theorem shell_new_fields :
    Shell.new.input_buffer.length = INPUT_BUFFER_SIZE ∧
    Shell.new.buffer_pos = 0 := by
  constructor
  · show (List.replicate INPUT_BUFFER_SIZE 0).length = INPUT_BUFFER_SIZE
    exact List.length_replicate _ _
  · rfl

/-- `Shell::process_command` always ends with a cleared buffer and a
redrawn prompt. -/
theorem process_command_clears (s : Shell) :
    s.process_command.1.buffer_pos = 0 ∧
    s.process_command.1.input_buffer = List.replicate INPUT_BUFFER_SIZE 0 ∧
    s.process_command.1.cursor_at_prompt_start = true := by
  unfold Shell.process_command
  exact ⟨rfl, rfl, rfl⟩

/-- Feeding printable characters moves the cursor to the saturating
minimum of the supplied count and the reserved capacity. -/
theorem feedChars_buffer_pos :
    ∀ (cs : List Char) (s : Shell),
      (∀ c ∈ cs, isPrintableAscii c = true) →
      s.input_buffer.length = INPUT_BUFFER_SIZE →
      s.buffer_pos ≤ INPUT_BUFFER_SIZE - 1 →
      (s.feedChars cs).buffer_pos =
        min (s.buffer_pos + cs.length) (INPUT_BUFFER_SIZE - 1) := by
  intro cs
  induction cs with
  | nil =>
    intro s _ _ hpos
    simp only [Shell.feedChars, List.foldl_nil, List.length_nil, Nat.add_zero]
    omega
  | cons c rest ih =>
    intro s hall hlen hpos
    have hc : isPrintableAscii c = true := hall c (by simp)
    have hrest : ∀ x ∈ rest, isPrintableAscii x = true :=
      fun x hx => hall x (by simp [hx])
    have hstep : s.feedChars (c :: rest) = ((s.handle_char c).1).feedChars rest := by
      simp [Shell.feedChars]
    rw [hstep, handle_char_printable s c hc]
    by_cases hroom : s.buffer_pos < INPUT_BUFFER_SIZE - 1
    · have hadd : (s.add_char c).1 =
          { s with
              input_buffer := s.input_buffer.set s.buffer_pos (c.toNat % 256)
              buffer_pos := s.buffer_pos + 1 } := by
        simp [Shell.add_char, hroom]
      rw [hadd]
      have h2 := ih { s with
          input_buffer := s.input_buffer.set s.buffer_pos (c.toNat % 256)
          buffer_pos := s.buffer_pos + 1 } hrest
        (by simpa using hlen) (by simpa using hroom)
      simp only [List.length_cons]
      rw [h2]
      dsimp only
      omega
    · have hadd : (s.add_char c).1 = s := by
        simp [Shell.add_char, hroom]
      rw [hadd]
      have h2 := ih s hrest hlen hpos
      simp only [List.length_cons]
      rw [h2]
      omega

/-- C4: every shell operation keeps the buffer length invariant
`buffer_pos ≤ INPUT_BUFFER_SIZE - 1` (one slot reserved) on the fixed
256-byte buffer; an append to a full buffer leaves the state unchanged
and shows the `[BUFFER FULL]` diagnostic; and appending printable
characters from the empty shell drives the length to the saturating
minimum of the count and 255 — in particular 256 appends leave length
255 with the 256th character dropped. -/
theorem shell_buffer_capacity_invariant :
    (∀ (s : Shell) (c : Char), ShellInv s → ShellInv (s.handle_char c).1) ∧
    (∀ (s : Shell) (c : Char), isPrintableAscii c = true →
      s.buffer_pos = INPUT_BUFFER_SIZE - 1 →
      s.handle_char c = (s, bufferFullDiag)) ∧
    (∀ cs : List Char, (∀ c ∈ cs, isPrintableAscii c = true) →
      (Shell.new.feedChars cs).buffer_pos =
        min cs.length (INPUT_BUFFER_SIZE - 1)) := by
  refine ⟨?_, ?_, ?_⟩
  · intro s c hinv
    obtain ⟨hlen, hpos⟩ := hinv
    unfold ShellInv
    unfold Shell.handle_char
    split
    · have h := process_command_clears s
      refine ⟨?_, ?_⟩
      · rw [h.2.1]
        exact List.length_replicate _ _
      · rw [h.1]
        omega
    split
    · unfold Shell.handle_backspace
      split
      · exact ⟨by simp [hlen], by dsimp only; omega⟩
      · exact ⟨hlen, hpos⟩
    split
    · unfold Shell.add_char
      split
      · exact ⟨by simp [hlen], by dsimp only; omega⟩
      · exact ⟨hlen, hpos⟩
    · exact ⟨hlen, hpos⟩
  · intro s c hc hfull
    rw [handle_char_printable s c hc]
    unfold Shell.add_char
    rw [if_neg (by omega)]
    rfl
  · intro cs hall
    have h := feedChars_buffer_pos cs Shell.new hall shell_new_fields.1
      (by rw [shell_new_fields.2]; omega)
    rw [shell_new_fields.2] at h
    simpa using h

set_option maxRecDepth 4000 in
/-- Witness for C4: 256 printable appends from the empty shell leave the
length at 255. -/
theorem shell_buffer_capacity_invariant_witness :
    (Shell.new.feedChars (List.replicate 256 (Char.ofNat 97))).buffer_pos = 255 := by
  have h := shell_buffer_capacity_invariant.2.2
    (List.replicate 256 (Char.ofNat 97)) (by decide)
  rw [List.length_replicate] at h
  simpa [INPUT_BUFFER_SIZE] using h

/-- C7: dispatching a line whose trimmed content is empty leaves
`commandCount` unchanged, clears the buffer and redraws the prompt, and
the counter is bumped (by one, in `u64` arithmetic) exactly when the
trimmed command is non-empty. -/
theorem dispatch_command_count (s : Shell)
    (hascii : ∀ b ∈ s.input_buffer.take s.buffer_pos, b < 128) :
    s.process_command.1.buffer_pos = 0 ∧
    s.process_command.1.input_buffer = List.replicate INPUT_BUFFER_SIZE 0 ∧
    (trimBytes (s.input_buffer.take s.buffer_pos) = [] →
      s.process_command.1.command_count = s.command_count ∧
      s.process_command.2 = Ev.printStr "\n" :: promptEvents) ∧
    (trimBytes (s.input_buffer.take s.buffer_pos) ≠ [] →
      s.process_command.1.command_count = (s.command_count + 1) % 2 ^ 64 ∧
      s.process_command.2 = Ev.printStr "\n" ::
        Ev.execCmd (trimBytes (s.input_buffer.take s.buffer_pos)) ::
          promptEvents) := by
  have hdec : utf8DecodeAscii (s.input_buffer.take s.buffer_pos) =
      some (s.input_buffer.take s.buffer_pos) := by
    unfold utf8DecodeAscii
    rw [if_pos]
    simp only [List.all_eq_true, decide_eq_true_eq]
    exact hascii
  have hclears := process_command_clears s
  refine ⟨hclears.1, hclears.2.1, ?_, ?_⟩
  · intro htrim
    rcases Nat.eq_zero_or_pos s.buffer_pos with h0 | hpos
    · constructor
      · show (s.process_command).1.command_count = s.command_count
        simp only [Shell.process_command]
        rw [if_neg (by omega)]
        rfl
      · simp only [Shell.process_command]
        rw [if_neg (by omega)]
        rfl
    · constructor
      · simp only [Shell.process_command, hdec]
        rw [if_pos hpos]
        rw [if_neg (by simp [htrim])]
        rfl
      · simp only [Shell.process_command, hdec]
        rw [if_pos hpos]
        rw [if_neg (by simp [htrim])]
        rfl
  · intro htrim
    have hpos : 0 < s.buffer_pos := by
      rcases Nat.eq_zero_or_pos s.buffer_pos with h0 | h
      · exfalso
        apply htrim
        rw [h0, List.take_zero]
        rfl
      · exact h
    constructor
    · simp only [Shell.process_command, hdec]
      rw [if_pos hpos]
      rw [if_pos htrim]
      rfl
    · simp only [Shell.process_command, hdec]
      rw [if_pos hpos]
      rw [if_pos htrim]
      rfl

/-- Witness for C7: dispatching from the empty boot shell leaves the
command counter at 0 and redraws the prompt. -/
theorem dispatch_command_count_witness :
    Shell.new.process_command.1.command_count = 0 ∧
    Shell.new.process_command.2 = Ev.printStr "\n" :: promptEvents := by
  have hascii : ∀ b ∈ Shell.new.input_buffer.take Shell.new.buffer_pos, b < 128 := by
    intro b hb
    rw [show Shell.new.buffer_pos = 0 from rfl, List.take_zero] at hb
    exact absurd hb (List.not_mem_nil b)
  have htrim : trimBytes (Shell.new.input_buffer.take Shell.new.buffer_pos) = [] := by
    rw [show Shell.new.buffer_pos = 0 from rfl, List.take_zero]
    rfl
  exact (dispatch_command_count Shell.new hascii).2.2.1 htrim

/-- `Writer::newline` always restores the cursor-row invariant: either no
scroll was needed and the new row fits, or the scroll pinned the cursor
to the last fully visible row. -/
theorem newline_cursor (w : TextWriter) (hh : w.char_height ≤ w.info.height) :
    w.newline.cursor_y + w.char_height ≤ w.info.height := by
  unfold TextWriter.newline
  dsimp only
  split
  · simp only [TextWriter.scroll_up]
    omega
  · next hle =>
    simp only [] at hle ⊢
    omega

/-- C6: `Writer::write_char` preserves the console invariant
`cursorY + glyphHeight ≤ surfaceHeight` for every character (a
newline-triggered scroll restores it before the write completes), and
`Writer::scroll_up` pins the cursor to `surfaceHeight - glyphHeight`. -/
theorem console_cursor_invariant :
    (∀ (font : Char → List Nat) (w : TextWriter) (ch : Char),
      w.char_height ≤ w.info.height →
      w.cursor_y + w.char_height ≤ w.info.height →
      (w.write_char font ch).cursor_y + w.char_height ≤ w.info.height) ∧
    (∀ w : TextWriter, w.scroll_up.cursor_y = w.info.height - w.char_height) := by
  constructor
  · intro font w ch hh hinv
    unfold TextWriter.write_char
    split
    · exact newline_cursor w hh
    split
    · dsimp only
      exact hinv
    · dsimp only
      split
      · exact newline_cursor w hh
      · exact hinv
  · intro w
    rfl

/-- Witness for C6 on a 16×32 surface: writing one glyph keeps the
cursor row fully visible. -/
theorem console_cursor_invariant_witness :
    ((TextWriter.new [] ⟨16, 32, 0⟩).write_char (fun _ => List.replicate 8 0)
        (Char.ofNat 97)).cursor_y +
      (TextWriter.new [] ⟨16, 32, 0⟩).char_height ≤
      (TextWriter.new [] ⟨16, 32, 0⟩).info.height :=
  console_cursor_invariant.1 (fun _ => List.replicate 8 0)
    (TextWriter.new [] ⟨16, 32, 0⟩) (Char.ofNat 97) (by decide) (by decide)

/-- When `handle_modifier_key` reports a non-modifier scancode it leaves
the state untouched. -/
theorem modifier_false_fix (st : KeyboardState) (sc : Nat)
    (h : (handle_modifier_key st sc).2 = false) :
    (handle_modifier_key st sc).1 = st := by
  rcases hmk : handle_modifier_key st sc with ⟨st2, b⟩
  rw [hmk] at h
  simp only [] at h
  subst h
  show st2 = st
  unfold handle_modifier_key at hmk
  split at hmk
  · exact absurd hmk (by simp)
  split at hmk
  · exact absurd hmk (by simp)
  split at hmk
  · exact absurd hmk (by simp)
  · injection hmk with h1 _
    exact h1.symm

/-- C3 (amended): for every non-modifier press scancode that decodes to a
character, the keyboard interrupt handler routes ordinary characters to
the shell's character-consumption entry point and echoes them on the
console; newline is routed to the shell only (its display is delegated
to the shell's dispatch); backspace is forwarded to the shell and
reflected on the console exactly when the shell reports
`can_backspace()`; and Tab is the exception — it is rendered as a
4-character indentation on the console and never forwarded to the
shell. -/
theorem keyboard_char_routing_amended (st : KeyboardState) (sc : Nat) (cb : Bool)
    (hsc : sc < 0x80) (hmod : (handle_modifier_key st sc).2 = false)
    (ch : Char)
    (hch : scancode_to_char sc st.shift_pressed st.caps_lock = some ch) :
    ((ch ≠ Char.ofNat 9 ∧ ch ≠ Char.ofNat 8 ∧ ch ≠ Char.ofNat 10) →
      (keyboard_interrupt_handler st sc cb).2 =
        [Ev.shellChar ch,
         Ev.setColor
           (if st.caps_lock && ch.isAlpha then Color.RED
            else if st.shift_pressed then Color.BLUE else Color.GREEN)
           Color.BLACK,
         Ev.printChar ch,
         Ev.setColor Color.WHITE Color.BLACK,
         Ev.eoi KEYBOARD_INTERRUPT_ID]) ∧
    (ch = Char.ofNat 10 →
      (keyboard_interrupt_handler st sc cb).2 =
        [Ev.shellChar (Char.ofNat 10), Ev.eoi KEYBOARD_INTERRUPT_ID]) ∧
    (ch = Char.ofNat 8 →
      (keyboard_interrupt_handler st sc cb).2 =
        (if cb then [Ev.shellChar (Char.ofNat 8), Ev.consoleBackspace] else [])
          ++ [Ev.eoi KEYBOARD_INTERRUPT_ID]) ∧
    (ch = Char.ofNat 9 →
      (∀ c : Char, Ev.shellChar c ∉ (keyboard_interrupt_handler st sc cb).2) ∧
      (keyboard_interrupt_handler st sc cb).2 =
        [Ev.setColor Color.YELLOW Color.BLACK, Ev.printStr ">   ",
         Ev.setColor Color.WHITE Color.BLACK, Ev.eoi KEYBOARD_INTERRUPT_ID]) := by
  have hst : (handle_modifier_key st sc).1 = st := modifier_false_fix st sc hmod
  have hexp : keyboard_interrupt_handler st sc cb =
      (st, (if ch = Char.ofNat 8 then
          if cb then [Ev.shellChar (Char.ofNat 8), Ev.consoleBackspace] else []
        else if ch = Char.ofNat 10 then [Ev.shellChar (Char.ofNat 10)]
        else if ch = Char.ofNat 9 then
          [Ev.setColor Color.YELLOW Color.BLACK, Ev.printStr ">   ",
           Ev.setColor Color.WHITE Color.BLACK]
        else
          [Ev.shellChar ch,
           Ev.setColor
             (if st.caps_lock && ch.isAlpha then Color.RED
              else if st.shift_pressed then Color.BLUE else Color.GREEN)
             Color.BLACK,
           Ev.printChar ch,
           Ev.setColor Color.WHITE Color.BLACK])
        ++ [Ev.eoi KEYBOARD_INTERRUPT_ID]) := by
    rcases hmk : handle_modifier_key st sc with ⟨st2, b⟩
    have hb : b = false := by rw [hmk] at hmod; exact hmod
    have hs2 : st2 = st := by rw [hmk] at hst; exact hst
    subst hb
    subst hs2
    simp only [keyboard_interrupt_handler, hmk, Bool.false_eq_true, if_false,
      if_pos hsc, hch]
  refine ⟨?_, ?_, ?_, ?_⟩
  · rintro ⟨h9, h8, h10⟩
    rw [hexp]
    simp only [if_neg h8, if_neg h10, if_neg h9]
    rfl
  · intro h10
    subst h10
    rw [hexp]
    rfl
  · intro h8
    subst h8
    rw [hexp]
    rfl
  · intro h9
    subst h9
    constructor
    · intro c
      rw [hexp]
      simp
    · rw [hexp]
      rfl

/-- C3 (counterexample): the Tab press scancode `0x0F` is a non-modifier
press scancode that decodes to a character, yet the handler routes no
character at all to the shell's character-consumption entry point. -/
theorem keyboard_tab_routing_counterexample :
    (0x0F : Nat) < 0x80 ∧
    (handle_modifier_key KeyboardState.new 0x0F).2 = false ∧
    scancode_to_char 0x0F KeyboardState.new.shift_pressed
      KeyboardState.new.caps_lock = some (Char.ofNat 9) ∧
    ∀ c : Char, Ev.shellChar c ∉
      (keyboard_interrupt_handler KeyboardState.new 0x0F true).2 := by
  have hevs : (keyboard_interrupt_handler KeyboardState.new 0x0F true).2 =
      [Ev.setColor Color.YELLOW Color.BLACK, Ev.printStr ">   ",
       Ev.setColor Color.WHITE Color.BLACK, Ev.eoi KEYBOARD_INTERRUPT_ID] := by
    decide
  refine ⟨by decide, by decide, by decide, ?_⟩
  intro c
  rw [hevs]
  simp

/-- Witness for the amended C3 at the `a` key from the boot state: the
character is routed to the shell and echoed in green. -/
theorem keyboard_char_routing_amended_witness :
    (keyboard_interrupt_handler KeyboardState.new 0x1E false).2 =
      [Ev.shellChar 'a',
       Ev.setColor Color.GREEN Color.BLACK,
       Ev.printChar 'a',
       Ev.setColor Color.WHITE Color.BLACK,
       Ev.eoi KEYBOARD_INTERRUPT_ID] := by
  have h := (keyboard_char_routing_amended KeyboardState.new 0x1E false
    (by decide) (by decide) 'a' (by decide)).1 ⟨by decide, by decide, by decide⟩
  exact h.trans (by decide)
